import Mathlib

/-!
Verification of the documentation subsystem of `piston/doc.py`.

The Python module is shallowly embedded below.  Python strings are Lean
`String`s; dynamic "may raise" computations are `Except PyErr`; attribute
lookup on a handler class walks an explicit single-inheritance chain, the
way CPython attribute lookup does for the class bodies that matter here.
-/

namespace Piston

/-- Python exceptions that the embedded code can raise. -/
inductive PyErr where
  | valueError (msg : String)
  | keyError (key : String)
  | typeError
  | attributeError
  | other
deriving DecidableEq

/-- A Python function that implements one handler operation.
`name` is the function's `__name__`; `module` identifies the module the
function was defined in (what `inspect.getmodule(f)` returns); `args` is
`inspect.getargspec(f)[0]` and `defaults` carries the `str()` renderings of
`inspect.getargspec(f)[3]` (the only use the source makes of a default value
is `str(default)`, so the embedding stores that rendering directly;
an absent defaults tuple and an empty one are both `[]`, which is faithful
because `if defaults` is falsy for both `None` and `()`). -/
structure MethodImpl where
  name : String
  module : Nat
  args : List String
  defaults : List String
deriving DecidableEq

/-- A Python class as far as attribute lookup is concerned: the module it
was defined in, the operation methods written in its own class body, and
its base class (`obj` is `object`, which defines none of the four
operations). -/
inductive PyClass where
  | obj
  | cls (module : Nat) (own : List (String × MethodImpl)) (base : PyClass)

/-- The module a class was defined in (`inspect.getmodule(cls)`);
`object` lives in the builtins module, numbered 0 here. -/
def PyClass.module : PyClass → Nat
  | .obj => 0
  | .cls m _ _ => m

/-- Python attribute lookup `getattr(cls, name, None)` for the operation
methods: search the class body, then the base chain. -/
def PyClass.getattr : PyClass → String → Option MethodImpl
  | .obj, _ => none
  | .cls _ own base, n =>
    match own.lookup n with
    | some m => some m
    | none => base.getattr n

/-- Whether the class body itself defines attribute `n` (as opposed to
inheriting it from a base). -/
def PyClass.declaresOwn : PyClass → String → Bool
  | .obj, _ => false
  | .cls _ own _, n => (own.lookup n).isSome

/-- One field of a backing model (`model._meta.fields` element): its name
plus the metadata a field descriptor carries. -/
structure DBField where
  name : String
  meta : String
deriving DecidableEq

/-- A backing model: `model._meta.fields`. -/
structure Model where
  meta_fields : List DBField
deriving DecidableEq

/-- The tuple returned by a handler's `resource_uri()` locator:
`(view_identifier, positional_args, keyword_args)`.  Only the length of the
positional-argument list and the keys of the keyword dictionary are ever
consulted by the source. -/
structure ResourceUri where
  view : String
  args : List String
  kwargs : List (String × Option String)

/-- A handler descriptor: the class being documented.  `cls` drives
attribute lookup and staleness; `resource_uri` is the locator call, which
may raise (`.error`), e.g. with an `AttributeError` when the handler
declares no locator. -/
structure Handler where
  name : String
  cls : PyClass
  allowed_methods : List String
  is_anonymous : Bool
  model : Option Model
  fields : Option (List String)
  resource_uri : Except PyErr ResourceUri

/-- `inspect.getmodule(self.handler)`. -/
def Handler.module (h : Handler) : Nat := h.cls.module

/-- `getattr(self.handler, method, None)`. -/
def Handler.getattr (h : Handler) (n : String) : Option MethodImpl :=
  h.cls.getattr n

/-- Modelled from the spec: `get_http_name` (piston.utils, not under src/)
is the fixed table read→GET, create→POST, update→PUT, delete→DELETE; other
inputs are outside the table and returned unchanged. -/
def get_http_name (m : String) : String :=
  if m = "read" then "GET"
  else if m = "create" then "POST"
  else if m = "update" then "PUT"
  else if m = "delete" then "DELETE"
  else m

/-- `HandlerMethod(met, stale)`: an operation implementation paired with
its staleness flag. -/
structure HandlerMethod where
  method : MethodImpl
  stale : Bool
deriving DecidableEq

/-- The loop body of `HandlerDocumentation.get_methods`: iterate the
candidate names, skip absent implementations, compute `stale` by comparing
defining modules, and apply the anonymous / non-anonymous yield rule
(`not stale or met.__name__ == "read" and 'GET' in self.allowed_methods`
parenthesizes as `not stale or (… and …)`). -/
def get_methods_go (h : Handler) (include_default : Bool) :
    List String → List HandlerMethod
  | [] => []
  | method :: rest =>
    match h.getattr method with
    | none => get_methods_go h include_default rest
    | some met =>
      let stale := met.module != h.module
      if h.is_anonymous = false then
        if !stale || include_default then
          ⟨met, stale⟩ :: get_methods_go h include_default rest
        else
          get_methods_go h include_default rest
      else
        if !stale || (met.name == "read" && h.allowed_methods.contains "GET") then
          ⟨met, stale⟩ :: get_methods_go h include_default rest
        else
          get_methods_go h include_default rest

/-- `HandlerDocumentation.get_methods(include_default, available_only)`:
start from the four canonical names, restrict by the whitelist when
`available_only`, then run the loop. -/
def get_methods (h : Handler) (include_default available_only : Bool) :
    List HandlerMethod :=
  let methods := ["read", "create", "update", "delete"]
  let methods :=
    if available_only then
      methods.filter (fun m => h.allowed_methods.contains (get_http_name m))
    else methods
  get_methods_go h include_default methods

/-- `get_all_methods()`. -/
def get_all_methods (h : Handler) : List HandlerMethod :=
  get_methods h true false

/-- `get_all_allowed_methods()`. -/
def get_all_allowed_methods (h : Handler) : List HandlerMethod :=
  get_methods h true true

/-- The body of the `HandlerMethod.iter_args` loop for one `(idx, arg)`
pair: skip the three reserved names, and pair `arg` with
`str(defaults[-didx])` when `defaults and len(defaults) >= didx` for
`didx = len(args) - idx` (`defaults[-didx]` is
`defaults[len(defaults) - didx]`). -/
def iter_args_step (m : MethodImpl) (p : Nat × String) :
    Option (String × Option String) :=
  if p.2 = "self" ∨ p.2 = "request" ∨ p.2 = "form" then none
  else
    let didx := m.args.length - p.1
    if m.defaults ≠ [] ∧ didx ≤ m.defaults.length then
      some (p.2, some (m.defaults.getD (m.defaults.length - didx) ""))
    else
      some (p.2, none)

/-- `HandlerMethod.iter_args`: enumerate `args` and run the loop body. -/
def iter_args (m : MethodImpl) : List (String × Option String) :=
  m.args.enum.filterMap (iter_args_step m)

/-- The character set of Python's `rstrip(", ")`. -/
def isStripChar (c : Char) : Bool := c = ',' || c = ' '

/-- Python `s.rstrip(", ")`: drop trailing characters from the set. -/
def rstripCommaSpace (s : String) : String :=
  String.mk ((s.data.reverse.dropWhile isStripChar).reverse)

/-- Python `s.replace("=None", "=<optional>")`, specialised to its fixed
pattern: scan left to right, replace every occurrence, never rescanning
the replacement text. -/
def replOptChars : List Char → List Char
  | '=' :: 'N' :: 'o' :: 'n' :: 'e' :: rest => "=<optional>".data ++ replOptChars rest
  | c :: rest => c :: replOptChars rest
  | [] => []

/-- String version of the `"=None"` → `"=<optional>"` replacement. -/
def replaceNoneOptional (s : String) : String := String.mk (replOptChars s.data)

/-- One iteration of the `signature` accumulation loop: append `argn`,
then `"=" + argdef` when `argdef` is truthy (a non-`None`, non-empty
string), then `", "`. -/
def signature_step (acc : String) (pr : String × Option String) : String :=
  let acc := acc ++ pr.1
  let acc :=
    match pr.2 with
    | some d => if d ≠ "" then acc ++ "=" ++ d else acc
    | none => acc
  acc ++ ", "

/-- `HandlerMethod.signature`: run the accumulation loop over
`iter_args`, then `rstrip(", ")` and, for `parse_optional`, the `"=None"`
replacement. -/
def signature (m : MethodImpl) (parse_optional : Bool) : String :=
  let sigacc := (iter_args m).foldl signature_step ""
  let sigacc := rstripCommaSpace sigacc
  if parse_optional then replaceNoneOptional sigacc else sigacc

/-- A display record produced for one field: `parse_dbfield(f)` results
carry metadata, the bare `{'name': f}` wrappers do not. -/
structure FieldRecord where
  name : String
  meta : Option String
deriving DecidableEq

/-- Modelled from the spec: `parse_dbfield` (piston.utils, not under src/)
parses a model field descriptor into a display-friendly record, name plus
type/metadata extracted from the field's own description. -/
def parse_dbfield (f : DBField) : FieldRecord := ⟨f.name, some f.meta⟩

/-- `HandlerDocumentation.get_fields`.  `not fields` is Python truthiness:
true for an absent (`None`) list and for an empty one.  With no model, the
final list comprehension iterates `fields`; iterating `None` raises
`TypeError`. -/
def get_fields (h : Handler) : Except PyErr (List FieldRecord) :=
  match h.model with
  | some m =>
    let fields1 :=
      if (h.fields.getD []) = [] then m.meta_fields.map DBField.name
      else h.fields.getD []
    .ok ((m.meta_fields.filter (fun f => fields1.contains f.name)).map parse_dbfield)
  | none =>
    match h.fields with
    | some fs => .ok (fs.map (fun f => ⟨f, none⟩))
    | none => .error .typeError

/-- One piece of a registered URL pattern's reverse template: literal text
or a `%(name)s` placeholder. -/
inductive TemplateElem where
  | lit (s : String)
  | param (n : String)
deriving DecidableEq

/-- The routing collaborators of `get_resource_uri_template`:
`get_script_prefix()`, `get_callable(view, True)` (which may raise), and
`get_resolver(None).reverse_dict.getlist(view)` — a list of
`(possibility, pattern)` pairs where each possibility is a list of
`(result_template, params)` pairs. -/
structure ResolverEnv where
  script_root : String
  get_callable : String → Except PyErr String
  reverse_getlist : String → List (List (List TemplateElem × List String) × String)

/-- Python `template % mapping` for `%(name)s` placeholders: a placeholder
whose name is missing from the mapping raises `KeyError`. -/
def interp_template (mapping : List (String × String)) :
    List TemplateElem → Except PyErr String
  | [] => .ok ""
  | .lit s :: rest => (interp_template mapping rest).map (fun t => s ++ t)
  | .param n :: rest =>
    match mapping.lookup n with
    | some v => (interp_template mapping rest).map (fun t => v ++ t)
    | none => .error (.keyError n)

/-- `_convert(template, params)`: render the template against
`dict([p, "{%s}" % p] for p in params)` and prefix the script prefix. -/
def uri_convert (env : ResolverEnv) (result : List TemplateElem)
    (params : List String) : Except PyErr String :=
  (interp_template (params.map (fun p => (p, "\x7b" ++ p ++ "\x7d"))) result).map
    (fun paths => env.script_root ++ paths)

/-- Python `set(a) == set(b)` on name lists. -/
def setEqList (a b : List String) : Bool := a.all b.contains && b.all a.contains

/-- The inner `for result, params in possibility` loop, with its
`continue`s, first-match `return`, and fallthrough. -/
def uri_loop_inner (env : ResolverEnv) (args kwargKeys : List String) :
    List (List TemplateElem × List String) → Except PyErr (Option String)
  | [] => .ok none
  | (result, params) :: rest =>
    if args ≠ [] then
      if args.length ≠ params.length then uri_loop_inner env args kwargKeys rest
      else (uri_convert env result params).map some
    else
      if setEqList kwargKeys params = false then uri_loop_inner env args kwargKeys rest
      else (uri_convert env result params).map some

/-- The outer `for possibility, pattern in possibilities` loop. -/
def uri_loop_outer (env : ResolverEnv) (args kwargKeys : List String) :
    List (List (List TemplateElem × List String) × String) → Except PyErr (Option String)
  | [] => .ok none
  | (possibility, _) :: rest =>
    match uri_loop_inner env args kwargKeys possibility with
    | .ok none => uri_loop_outer env args kwargKeys rest
    | r => r

/-- The `try:` body of `get_resource_uri_template`: call the locator,
resolve the view, query the reverse table, and run the matching loops. -/
def uri_try_body (h : Handler) (env : ResolverEnv) : Except PyErr (Option String) := do
  let ru ← h.resource_uri
  let lookup_view ← env.get_callable ru.view
  let possibilities := env.reverse_getlist lookup_view
  uri_loop_outer env ru.args (ru.kwargs.map Prod.fst) possibilities

/-- `HandlerDocumentation.get_resource_uri_template`: the `try:` body with
a bare `except:` returning `None`; a fallthrough of the loops is also
`None`. -/
def get_resource_uri_template (h : Handler) (env : ResolverEnv) : Option String :=
  match uri_try_body h env with
  | .ok r => r
  | .error _ => none

/-- A Python object as `generate_doc` can receive it: a handler class, an
instance of a handler class, a `HandlerDocumentation` instance wrapping
some object, or any other object. -/
inductive PyVal where
  | handlerCls (h : Handler)
  | handlerInstance (h : Handler)
  | docInstance (wrapped : PyVal)
  | otherObj

/-- `isinstance(type(x), handler.HandlerMetaClass)`.  A handler class has
`type(x) = HandlerMetaClass`, and `isinstance(HandlerMetaClass,
HandlerMetaClass)` is false because `type(HandlerMetaClass)` is `type`,
which is not a subclass of `HandlerMetaClass` (`class HandlerMetaClass
(type)` in piston.handler).  A `HandlerDocumentation` instance has
`type(x) = HandlerDocumentation`, a plain class whose metaclass is `type`
— false again.  Only for an *instance of a handler class* is `type(x)`
itself an instance of the metaclass. -/
def type_is_handler_metaclass_instance : PyVal → Bool
  | .handlerInstance _ => true
  | _ => false

/-- `generate_doc(handler_cls)`: raise `ValueError` when
`isinstance(type(handler_cls), handler.HandlerMetaClass)`, else wrap the
argument in a `HandlerDocumentation`. -/
def generate_doc (v : PyVal) : Except PyErr PyVal :=
  if type_is_handler_metaclass_instance v then
    .error (.valueError "Give me handler, not %s")
  else
    .ok (.docInstance v)

/-- Python `name.replace("Anonymous", "")`, specialised to its fixed
pattern: every occurrence removed, left to right. -/
def replAnonChars : List Char → List Char
  | 'A' :: 'n' :: 'o' :: 'n' :: 'y' :: 'm' :: 'o' :: 'u' :: 's' :: rest =>
    replAnonChars rest
  | c :: rest => c :: replAnonChars rest
  | [] => []

/-- String version of stripping every literal `"Anonymous"`. -/
def stripAnonymous (s : String) : String := String.mk (replAnonChars s.data)

/-- `HandlerDocumentation(handler)`: the request-scoped wrapper the view
builds for each registered handler (`generate_doc` on a handler class
returns exactly this). -/
structure HandlerDocumentation where
  handler : Handler

/-- `HandlerDocumentation.name` = `self.handler.__name__`. -/
def HandlerDocumentation.name (d : HandlerDocumentation) : String := d.handler.name

/-- The order induced by `_compare`: compare names with every literal
`"Anonymous"` removed. -/
def doc_le (d1 d2 : HandlerDocumentation) : Bool :=
  decide (stripAnonymous d1.name ≤ stripAnonymous d2.name)

/-- `documentation_view`'s doc list: one `HandlerDocumentation` per
registered handler, sorted with `_compare` (CPython's `list.sort` is a
comparison sort; any sort agreeing with the comparator is observationally
the same up to ties, modelled here with `mergeSort`). -/
def documentation_view_docs (registry : List Handler) : List HandlerDocumentation :=
  (registry.map HandlerDocumentation.mk).mergeSort doc_le

/-! ## Claim-side (specification) definitions -/

/-- The four canonical operation names, in the spec's fixed order. -/
def canonical_ops : List String := ["read", "create", "update", "delete"]

/-- Spec-side description of `get_methods` for a non-anonymous handler:
restrict the canonical names by the whitelist when `available_only`, keep
only names with a present implementation, and yield each iff it is
non-stale or `include_default` is true. -/
def get_methods_spec_nonanon (h : Handler) (include_default available_only : Bool) :
    List HandlerMethod :=
  (if available_only then
      canonical_ops.filter (fun m => h.allowed_methods.contains (get_http_name m))
    else canonical_ops).filterMap
    (fun m =>
      (h.getattr m).bind (fun met =>
        let stale := met.module != h.module
        if !stale || include_default then some ⟨met, stale⟩ else none))

/-- Spec-side description of `get_methods` for an anonymous handler: an
implemented candidate is yielded iff it is non-stale, or its
implementation's name is "read" and "GET" is whitelisted. -/
def get_methods_spec_anon (h : Handler) (available_only : Bool) :
    List HandlerMethod :=
  (if available_only then
      canonical_ops.filter (fun m => h.allowed_methods.contains (get_http_name m))
    else canonical_ops).filterMap
    (fun m =>
      (h.getattr m).bind (fun met =>
        let stale := met.module != h.module
        if !stale || (met.name == "read" && h.allowed_methods.contains "GET") then
          some ⟨met, stale⟩
        else none))

/-! ## Helper lemmas about the `get_methods` loop -/

lemma get_methods_go_eq_filterMap_nonanon (h : Handler) (incl : Bool)
    (hna : h.is_anonymous = false) (ms : List String) :
    get_methods_go h incl ms =
      ms.filterMap (fun m =>
        (h.getattr m).bind (fun met =>
          let stale := met.module != h.module
          if !stale || incl then some ⟨met, stale⟩ else none)) := by
  induction ms with
  | nil => rfl
  | cons m rest ih =>
    rw [get_methods_go]
    cases hg : h.getattr m with
    | none => simp [hg, List.filterMap_cons, ih]
    | some met =>
      by_cases hp : (met.module = h.module ∨ incl = true)
      · simp [hg, hna, hp, List.filterMap_cons, ih]
      · simp [hg, hna, hp, List.filterMap_cons, ih]

lemma get_methods_go_eq_filterMap_anon (h : Handler) (incl : Bool)
    (ha : h.is_anonymous = true) (ms : List String) :
    get_methods_go h incl ms =
      ms.filterMap (fun m =>
        (h.getattr m).bind (fun met =>
          let stale := met.module != h.module
          if !stale || (met.name == "read" && h.allowed_methods.contains "GET") then
            some ⟨met, stale⟩
          else none)) := by
  induction ms with
  | nil => rfl
  | cons m rest ih =>
    rw [get_methods_go]
    cases hg : h.getattr m with
    | none => simp [hg, List.filterMap_cons, ih]
    | some met =>
      by_cases hp : (met.module = h.module ∨
          (met.name = "read" ∧ "GET" ∈ h.allowed_methods))
      · simp [hg, ha, hp, List.filterMap_cons, ih]
      · simp [hg, ha, hp, List.filterMap_cons, ih]

/-! ## Claims about `get_methods` -/

/-- C1: for a non-anonymous handler, `get_methods(include_default,
available_only)` yields, in the fixed order read, create, update, delete,
one entry per canonical operation that has a present implementation,
restricted (when `available_only`) to candidates whose wire-level name is
whitelisted, each yielded iff non-stale or `include_default`; in
particular with whitelist `["GET"]` and `available_only` only the read
operation can be yielded. -/
theorem c1_get_methods_non_anonymous (h : Handler) (incl avail : Bool)
    (hna : h.is_anonymous = false) :
    get_methods h incl avail = get_methods_spec_nonanon h incl avail ∧
      (h.allowed_methods = ["GET"] →
        get_methods h incl true =
          (match h.getattr "read" with
          | none => []
          | some met =>
            if (met.module == h.module) || incl then
              [⟨met, met.module != h.module⟩]
            else [])) := by
  constructor
  · rw [get_methods, get_methods_spec_nonanon, canonical_ops]
    exact get_methods_go_eq_filterMap_nonanon h incl hna _
  · intro hwl
    have hfil :
        (["read", "create", "update", "delete"].filter
          (fun m => (["GET"] : List String).contains (get_http_name m))) = ["read"] := by
      decide
    have hexp : get_methods h incl true = get_methods_go h incl
        (["read", "create", "update", "delete"].filter
          (fun m => h.allowed_methods.contains (get_http_name m))) := rfl
    rw [hexp, hwl, hfil]
    cases hg : h.getattr "read" with
    | none => simp [get_methods_go, hg]
    | some met =>
      by_cases hm : (met.module = h.module ∨ incl = true)
      · simp [get_methods_go, hg, hna, hm]
      · simp [get_methods_go, hg, hna, hm]

/-- C2: for an anonymous handler, an implemented candidate is yielded iff
it is non-stale or its implementation's name is "read" with "GET"
whitelisted; in particular a stale (inherited) read is still yielded when
"GET" is whitelisted. -/
theorem c2_get_methods_anonymous (h : Handler) (incl avail : Bool)
    (ha : h.is_anonymous = true) :
    get_methods h incl avail = get_methods_spec_anon h avail ∧
      (∀ met, h.getattr "read" = some met → met.name = "read" →
        h.allowed_methods.contains "GET" = true →
        (⟨met, met.module != h.module⟩ : HandlerMethod) ∈ get_methods h incl false) := by
  constructor
  · rw [get_methods, get_methods_spec_anon, canonical_ops]
    exact get_methods_go_eq_filterMap_anon h incl ha _
  · intro met hr hname hGET
    have hexp : get_methods h incl false =
        get_methods_go h incl ["read", "create", "update", "delete"] := rfl
    rw [hexp, get_methods_go_eq_filterMap_anon h incl ha]
    rw [List.mem_filterMap]
    refine ⟨"read", by simp, ?_⟩
    rw [hr, Option.some_bind]
    have hmemGET : "GET" ∈ h.allowed_methods := by simpa using hGET
    simp [hname, hmemGET]

/-- C10: for an anonymous handler the output of `get_methods` does not
depend on `include_default` (so `get_all_methods()` equals
`get_methods()`), and a stale entry is only ever yielded when its
implementation is named "read" and "GET" is whitelisted. -/
theorem c10_anonymous_include_default_irrelevant (h : Handler) (avail : Bool)
    (ha : h.is_anonymous = true) :
    (∀ incl incl', get_methods h incl avail = get_methods h incl' avail) ∧
      get_all_methods h = get_methods h false false ∧
      (∀ hm : HandlerMethod, hm ∈ get_methods h true avail → hm.stale = true →
        hm.method.name = "read" ∧ h.allowed_methods.contains "GET" = true) := by
  refine ⟨?_, ?_, ?_⟩
  · intro incl incl'
    rw [get_methods, get_methods, get_methods_go_eq_filterMap_anon h incl ha,
      get_methods_go_eq_filterMap_anon h incl' ha]
  · rw [get_all_methods, get_methods, get_methods,
      get_methods_go_eq_filterMap_anon h true ha,
      get_methods_go_eq_filterMap_anon h false ha]
  · intro hm hmem hstale
    rw [get_methods, get_methods_go_eq_filterMap_anon h true ha] at hmem
    rw [List.mem_filterMap] at hmem
    obtain ⟨m, _, hbind⟩ := hmem
    cases hg : h.getattr m with
    | none => rw [hg] at hbind; simp at hbind
    | some met =>
      rw [hg, Option.some_bind] at hbind
      have hbind2 :
          (if (!(met.module != h.module) ||
              (met.name == "read" && h.allowed_methods.contains "GET")) = true then
            some (⟨met, met.module != h.module⟩ : HandlerMethod)
          else none) = some hm := hbind
      split at hbind2
      · rename_i hcond
        cases Option.some.inj hbind2
        have hb : (met.module != h.module) = true := hstale
        rw [hb] at hcond
        simp only [Bool.not_true, Bool.false_or, Bool.and_eq_true, beq_iff_eq] at hcond
        exact ⟨hcond.1, hcond.2⟩
      · exact absurd hbind2 (by simp)

/-- C1 witness input: a fresh `read` implementation. -/
def c1w_read : MethodImpl := ⟨"read", 1, ["self", "request"], []⟩

/-- C1 witness input: a fresh `create` implementation. -/
def c1w_create : MethodImpl := ⟨"create", 1, ["self", "request"], []⟩

/-- C1 witness handler: non-anonymous, whitelist `["GET"]`, with both
`read` and `create` implemented. -/
def c1w_handler : Handler :=
  ⟨"C1WHandler",
    PyClass.cls 1 [("read", c1w_read), ("create", c1w_create)] PyClass.obj,
    ["GET"], false, none, none, Except.error PyErr.other⟩

/-- C1 witness: with whitelist `["GET"]` and `available_only`, only the
read operation is yielded even though `create` is implemented too. -/
theorem c1_get_methods_non_anonymous_witness :
    get_methods c1w_handler false true = [⟨c1w_read, false⟩] := by
  have h := (c1_get_methods_non_anonymous c1w_handler false true rfl).2 rfl
  rw [h]
  decide

/-- C2 witness input: a `read` implementation defined in module 0. -/
def c2w_read : MethodImpl := ⟨"read", 0, ["self", "request"], []⟩

/-- C2 witness handler: anonymous, defined in module 1, inheriting `read`
from a base in module 0, with "GET" whitelisted — the read is stale yet
yielded. -/
def c2w_handler : Handler :=
  ⟨"AnonymousC2W", PyClass.cls 1 [] (PyClass.cls 0 [("read", c2w_read)] PyClass.obj),
    ["GET"], true, none, none, Except.error PyErr.other⟩

/-- C2 witness: the stale inherited read of an anonymous handler with
"GET" whitelisted is yielded. -/
theorem c2_get_methods_anonymous_witness :
    (⟨c2w_read, true⟩ : HandlerMethod) ∈ get_methods c2w_handler false false :=
  (c2_get_methods_anonymous c2w_handler false false rfl).2 c2w_read rfl rfl rfl

/-- C10 witness input: a `read` implementation defined in module 0. -/
def c10w_read : MethodImpl := ⟨"read", 0, ["self", "request"], []⟩

/-- C10 witness handler: anonymous with an inherited read. -/
def c10w_handler : Handler :=
  ⟨"AnonymousC10W",
    PyClass.cls 1 [] (PyClass.cls 0 [("read", c10w_read)] PyClass.obj),
    ["GET"], true, none, none, Except.error PyErr.other⟩

/-- C10 witness: on a concrete anonymous handler, `include_default` does
not change the output and `get_all_methods` equals `get_methods()`. -/
theorem c10_anonymous_include_default_irrelevant_witness :
    get_methods c10w_handler true false = get_methods c10w_handler false false ∧
      get_all_methods c10w_handler = get_methods c10w_handler false false :=
  ⟨(c10_anonymous_include_default_irrelevant c10w_handler false rfl).1 true false,
    (c10_anonymous_include_default_irrelevant c10w_handler false rfl).2.1⟩

/-- C7 (counterexample): a handler that inherits `read` from a base class
defined in the same module.  The implementation is not declared on the
handler itself, yet `get_methods` reports it with `stale = false` and
yields it even without `include_default` — so "stale iff inherited" fails
on the code. -/
def c7_read : MethodImpl := ⟨"read", 0, ["self", "request"], []⟩

/-- C7 (counterexample): base class in module 0 that defines `read`. -/
def c7_base : PyClass := PyClass.cls 0 [("read", c7_read)] PyClass.obj

/-- C7 (counterexample): handler class, also in module 0, declaring
nothing of its own. -/
def c7_handler : Handler :=
  ⟨"C7Handler", PyClass.cls 0 [] c7_base, ["GET"], false, none, none,
    Except.error PyErr.other⟩

/-- C7 is false as stated: `c7_handler` only inherits `read` (it does not
declare it), yet the entry comes back with `stale = false` and is yielded
without `include_default`. -/
theorem c7_stale_counterexample :
    c7_handler.cls.declaresOwn "read" = false ∧
      c7_handler.getattr "read" = some c7_read ∧
      get_methods c7_handler false false = [⟨c7_read, false⟩] := by
  decide

/-- C7 (amended): `get_methods` marks an entry stale exactly when the
implementation's defining module differs from the handler class's defining
module; inheritance from a base in the same module is not marked stale. -/
theorem c7_stale_is_module_mismatch (h : Handler) (incl avail : Bool)
    (hm : HandlerMethod) (hmem : hm ∈ get_methods h incl avail) :
    hm.stale = true ↔ hm.method.module ≠ h.module := by
  by_cases hna : h.is_anonymous = false
  · rw [get_methods, get_methods_go_eq_filterMap_nonanon h incl hna] at hmem
    rw [List.mem_filterMap] at hmem
    obtain ⟨m, _, hbind⟩ := hmem
    cases hg : h.getattr m with
    | none => rw [hg] at hbind; simp at hbind
    | some met =>
      rw [hg, Option.some_bind] at hbind
      have hbind2 :
          (if (!(met.module != h.module) || incl) = true then
            some (⟨met, met.module != h.module⟩ : HandlerMethod)
          else none) = some hm := hbind
      split at hbind2
      · cases Option.some.inj hbind2
        exact bne_iff_ne
      · exact absurd hbind2 (by simp)
  · have ha : h.is_anonymous = true := by
      cases hq : h.is_anonymous
      · exact absurd hq hna
      · rfl
    rw [get_methods, get_methods_go_eq_filterMap_anon h incl ha] at hmem
    rw [List.mem_filterMap] at hmem
    obtain ⟨m, _, hbind⟩ := hmem
    cases hg : h.getattr m with
    | none => rw [hg] at hbind; simp at hbind
    | some met =>
      rw [hg, Option.some_bind] at hbind
      have hbind2 :
          (if (!(met.module != h.module) ||
              (met.name == "read" && h.allowed_methods.contains "GET")) = true then
            some (⟨met, met.module != h.module⟩ : HandlerMethod)
          else none) = some hm := hbind
      split at hbind2
      · cases Option.some.inj hbind2
        exact bne_iff_ne
      · exact absurd hbind2 (by simp)

/-- C7 (amended) witness input: a handler in module 1 inheriting `read`
from a base in module 0. -/
def c7w_read : MethodImpl := ⟨"read", 0, ["self", "request"], []⟩

/-- C7 (amended) witness handler. -/
def c7w_handler : Handler :=
  ⟨"C7WHandler", PyClass.cls 1 [] (PyClass.cls 0 [("read", c7w_read)] PyClass.obj),
    ["GET"], false, none, none, Except.error PyErr.other⟩

/-- C7 witness: the inherited cross-module read is yielded (with
`include_default`) and the amended theorem applies to it. -/
theorem c7_stale_is_module_mismatch_witness :
    (⟨c7w_read, true⟩ : HandlerMethod) ∈ get_methods c7w_handler true false ∧
      c7w_read.module ≠ c7w_handler.module :=
  ⟨by decide,
    (c7_stale_is_module_mismatch c7w_handler true false ⟨c7w_read, true⟩
      (by decide)).mp rfl⟩

/-! ## C6: `get_fields` -/

/-- C6 claim-side (amended) description of `get_fields`: with a model, the
parsed model fields filtered to the explicit list when it is present and
non-empty, else all model fields; without a model, bare name wrappers for
the explicit names when present, and a `TypeError` when the explicit list
is absent too. -/
def get_fields_spec (h : Handler) : Except PyErr (List FieldRecord) :=
  match h.model, h.fields with
  | some m, none => .ok (m.meta_fields.map parse_dbfield)
  | some m, some fs =>
    if fs = [] then .ok (m.meta_fields.map parse_dbfield)
    else .ok ((m.meta_fields.filter (fun f => fs.contains f.name)).map parse_dbfield)
  | none, some fs => .ok (fs.map (fun f => ⟨f, none⟩))
  | none, none => .error PyErr.typeError

/-- C6 (counterexample input): a handler with neither a backing model nor
an explicit field list. -/
def c6_handler : Handler :=
  ⟨"C6Handler", PyClass.cls 0 [] PyClass.obj, [], false, none, none,
    Except.error PyErr.other⟩

/-- C6 is false as stated: a handler with no backing model (and no
explicit field list) is not a tolerated case — `get_fields` raises a
`TypeError` by iterating `None`. -/
theorem c6_no_model_no_fields_counterexample :
    c6_handler.model = none ∧ get_fields c6_handler = .error PyErr.typeError :=
  ⟨rfl, rfl⟩

/-- C6 (amended): full characterization of `get_fields` — model present:
parsed model fields filtered by the explicit list when present and
non-empty, otherwise all model fields; model absent: bare name wrappers
when the list is present (empty included), `TypeError` when absent. -/
theorem c6_get_fields_characterization (h : Handler) :
    get_fields h = get_fields_spec h := by
  cases hm : h.model with
  | none =>
    cases hf : h.fields with
    | none => simp [get_fields, get_fields_spec, hm, hf]
    | some fs => simp [get_fields, get_fields_spec, hm, hf]
  | some m =>
    cases hf : h.fields with
    | none =>
      simp [get_fields, get_fields_spec, hm, hf]
      congr 1
      apply List.filter_eq_self.mpr
      intro f hf2
      simpa using ⟨f, hf2, rfl⟩
    | some fs =>
      by_cases hfs : fs = []
      · subst hfs
        simp [get_fields, get_fields_spec, hm, hf]
        congr 1
        apply List.filter_eq_self.mpr
        intro f hf2
        simpa using ⟨f, hf2, rfl⟩
      · simp [get_fields, get_fields_spec, hm, hf, hfs]

/-! ## C8: `generate_doc` -/

/-- C8 input handler. -/
def c8_handler : Handler :=
  ⟨"C8Handler", PyClass.cls 0 [] PyClass.obj, [], false, none, none,
    Except.error PyErr.other⟩

/-- C8: evaluating `generate_doc` around the failing input.  The
`isinstance(type(x), HandlerMetaClass)` guard accepts an already-built
`HandlerDocumentation` instance and wraps it (the claim and the
function's own error message say it must be rejected); a handler class is
accepted as intended; and the only rejected shape is an *instance of a
handler class* — for which the "Give me handler" message is absurd. -/
theorem c8_generate_doc_wraps_doc_instance :
    generate_doc (PyVal.docInstance (PyVal.handlerCls c8_handler)) =
        Except.ok (PyVal.docInstance (PyVal.docInstance (PyVal.handlerCls c8_handler))) ∧
      generate_doc (PyVal.handlerCls c8_handler) =
        Except.ok (PyVal.docInstance (PyVal.handlerCls c8_handler)) ∧
      generate_doc (PyVal.handlerInstance c8_handler) =
        Except.error (PyErr.valueError "Give me handler, not %s") :=
  ⟨rfl, rfl, rfl⟩

/-! ## C9: sorting of the documentation listing -/

lemma doc_le_trans (a b c : HandlerDocumentation) (hab : doc_le a b = true)
    (hbc : doc_le b c = true) : doc_le a c = true := by
  simp only [doc_le, decide_eq_true_eq] at hab hbc ⊢
  exact le_trans hab hbc

lemma doc_le_total (a b : HandlerDocumentation) :
    (doc_le a b || doc_le b a) = true := by
  simp only [doc_le, Bool.or_eq_true, decide_eq_true_eq]
  exact le_total _ _

/-- In a list sorted by a relation whose "key class" `p` is convex (an
element between two `p`-elements is itself a `p`-element), a class of
exactly two elements is adjacent. -/
lemma sorted_two_adjacent {α : Type} (le : α → α → Bool) (p : α → Bool)
    (hmid : ∀ a b c, le a b = true → le b c = true → p a = true → p c = true →
      p b = true) :
    ∀ l : List α, l.Pairwise (fun a b => le a b = true) → l.countP p = 2 →
      ∃ pre a b post, l = pre ++ a :: b :: post ∧ p a = true ∧ p b = true := by
  intro l
  induction l with
  | nil => intro _ hc; simp at hc
  | cons x xs ih =>
    intro hp hc
    rw [List.pairwise_cons] at hp
    obtain ⟨hx, hxs⟩ := hp
    rw [List.countP_cons] at hc
    by_cases hpx : p x = true
    · have hc1 : xs.countP p = 1 := by
        simp [hpx] at hc
        omega
      cases xs with
      | nil => simp at hc1
      | cons y ys =>
        by_cases hpy : p y = true
        · exact ⟨[], x, y, ys, rfl, hpx, hpy⟩
        · rw [List.countP_cons] at hc1
          have hpy' : (if p y = true then 1 else 0) = 0 := by simp [hpy]
          have hc2 : 0 < ys.countP p := by omega
          obtain ⟨z, hzmem, hpz⟩ := List.countP_pos_iff.mp hc2
          have hxy : le x y = true := hx y (List.mem_cons_self y ys)
          rw [List.pairwise_cons] at hxs
          have hyz : le y z = true := hxs.1 z hzmem
          exact absurd (hmid x y z hxy hyz hpx hpz) (by simp [hpy])
    · have hpx' : (if p x = true then 1 else 0) = 0 := by simp [hpx]
      have hc2 : xs.countP p = 2 := by omega
      obtain ⟨pre, a, b, post, heq, hpa, hpb⟩ := ih hxs hc2
      refine ⟨x :: pre, a, b, post, ?_, hpa, hpb⟩
      rw [heq]
      rfl

/-- Splitting the stripped-name key class into the two exact names, given
that no other stripped name collides. -/
lemma countP_stripanon_split :
    ∀ l : List Handler,
      (∀ h ∈ l, stripAnonymous h.name = "Foo" →
        h.name = "Foo" ∨ h.name = "AnonymousFoo") →
      l.countP (fun h => stripAnonymous h.name == "Foo") =
        l.countP (fun h => h.name == "Foo") +
          l.countP (fun h => h.name == "AnonymousFoo") := by
  intro l
  induction l with
  | nil => intro _; simp
  | cons x xs ih =>
    intro h3
    rw [List.countP_cons, List.countP_cons, List.countP_cons,
      ih (fun h hm => h3 h (List.mem_cons_of_mem x hm))]
    have e1 : stripAnonymous "Foo" = "Foo" := by decide
    have e2 : stripAnonymous "AnonymousFoo" = "Foo" := by decide
    by_cases hk : stripAnonymous x.name = "Foo"
    · rcases h3 x (List.mem_cons_self x xs) hk with hf | ha
      · simp [hk, hf, e1]
        omega
      · simp [hk, ha, e2]
        omega
    · have hnf : (x.name == "Foo") = false := by
        apply beq_eq_false_iff_ne.mpr
        intro heq
        apply hk
        rw [heq]
        exact e1
      have hna : (x.name == "AnonymousFoo") = false := by
        apply beq_eq_false_iff_ne.mpr
        intro heq
        apply hk
        rw [heq]
        exact e2
      simp [hk, hnf, hna]

/-- C9: the documentation listing sorts by names with every literal
"Anonymous" stripped, so a handler named "Foo" and its twin named
"AnonymousFoo" come out adjacent for every input ordering (provided no
third handler shares the stripped key "Foo"). -/
theorem c9_anonymous_twin_adjacent (registry : List Handler)
    (h1 : registry.countP (fun h => h.name == "Foo") = 1)
    (h2 : registry.countP (fun h => h.name == "AnonymousFoo") = 1)
    (h3 : ∀ h ∈ registry, stripAnonymous h.name = "Foo" →
      h.name = "Foo" ∨ h.name = "AnonymousFoo") :
    ∃ pre d1 d2 post,
      documentation_view_docs registry = pre ++ d1 :: d2 :: post ∧
        ((d1.name = "Foo" ∧ d2.name = "AnonymousFoo") ∨
          (d1.name = "AnonymousFoo" ∧ d2.name = "Foo")) := by
  have hsort :
      (List.mergeSort (registry.map HandlerDocumentation.mk) doc_le).Pairwise
        (fun a b => doc_le a b = true) :=
    List.sorted_mergeSort doc_le_trans doc_le_total _
  have hperm :
      (List.mergeSort (registry.map HandlerDocumentation.mk) doc_le).Perm
        (registry.map HandlerDocumentation.mk) :=
    List.mergeSort_perm _ _
  have hkey :
      (List.mergeSort (registry.map HandlerDocumentation.mk) doc_le).countP
        (fun d => stripAnonymous d.name == "Foo") = 2 := by
    rw [hperm.countP_eq, List.countP_map]
    have hconv : ((fun d => stripAnonymous d.name == "Foo") ∘ HandlerDocumentation.mk) =
        (fun h : Handler => stripAnonymous h.name == "Foo") := rfl
    rw [hconv, countP_stripanon_split registry h3, h1, h2]
  obtain ⟨pre, d1, d2, post, heq, hp1, hp2⟩ :=
    sorted_two_adjacent doc_le (fun d => stripAnonymous d.name == "Foo")
      (by
        intro a b c hab hbc hpa hpc
        simp only [doc_le, decide_eq_true_eq] at hab hbc
        simp only [beq_iff_eq] at hpa hpc ⊢
        rw [hpa] at hab
        rw [hpc] at hbc
        exact le_antisymm hbc (hpa ▸ hab))
      _ hsort hkey
  have hcFoo :
      (List.mergeSort (registry.map HandlerDocumentation.mk) doc_le).countP
        (fun d => d.name == "Foo") = 1 := by
    rw [hperm.countP_eq, List.countP_map]
    have hconv : ((fun d => d.name == "Foo") ∘ HandlerDocumentation.mk) =
        (fun h : Handler => h.name == "Foo") := rfl
    rw [hconv, h1]
  have hcAnon :
      (List.mergeSort (registry.map HandlerDocumentation.mk) doc_le).countP
        (fun d => d.name == "AnonymousFoo") = 1 := by
    rw [hperm.countP_eq, List.countP_map]
    have hconv : ((fun d => d.name == "AnonymousFoo") ∘ HandlerDocumentation.mk) =
        (fun h : Handler => h.name == "AnonymousFoo") := rfl
    rw [hconv, h2]
  have hmemname : ∀ d : HandlerDocumentation,
      d ∈ List.mergeSort (registry.map HandlerDocumentation.mk) doc_le →
      stripAnonymous d.name = "Foo" → d.name = "Foo" ∨ d.name = "AnonymousFoo" := by
    intro d hmem hstrip
    have hd : d ∈ registry.map HandlerDocumentation.mk := hperm.mem_iff.mp hmem
    obtain ⟨h, hhreg, hdh⟩ := List.mem_map.mp hd
    subst hdh
    exact h3 h hhreg hstrip
  have hd1 : d1.name = "Foo" ∨ d1.name = "AnonymousFoo" := by
    apply hmemname d1
    · rw [heq]
      simp
    · exact beq_iff_eq.mp hp1
  have hd2 : d2.name = "Foo" ∨ d2.name = "AnonymousFoo" := by
    apply hmemname d2
    · rw [heq]
      simp
    · exact beq_iff_eq.mp hp2
  refine ⟨pre, d1, d2, post, heq, ?_⟩
  have hsum : ∀ q : HandlerDocumentation → Bool,
      (List.mergeSort (registry.map HandlerDocumentation.mk) doc_le).countP q =
        pre.countP q + ((if q d1 = true then 1 else 0) +
          ((if q d2 = true then 1 else 0) + post.countP q)) := by
    intro q
    rw [heq, List.countP_append, List.countP_cons, List.countP_cons]
    omega
  rcases hd1 with h1f | h1a
  · rcases hd2 with h2f | h2a
    · exfalso
      have := hsum (fun d => d.name == "Foo")
      rw [hcFoo] at this
      simp [h1f, h2f] at this
      omega
    · exact Or.inl ⟨h1f, h2a⟩
  · rcases hd2 with h2f | h2a
    · exact Or.inr ⟨h1a, h2f⟩
    · exfalso
      have := hsum (fun d => d.name == "AnonymousFoo")
      rw [hcAnon] at this
      simp [h1a, h2a] at this
      omega

/-- C9 witness handler named "Foo". -/
def c9w_foo : Handler :=
  ⟨"Foo", PyClass.cls 0 [] PyClass.obj, ["GET"], false, none, none,
    Except.error PyErr.other⟩

/-- C9 witness handler named "AnonymousFoo". -/
def c9w_anonfoo : Handler :=
  ⟨"AnonymousFoo", PyClass.cls 0 [] PyClass.obj, ["GET"], true, none, none,
    Except.error PyErr.other⟩

/-- C9 witness handler named "Bar". -/
def c9w_bar : Handler :=
  ⟨"Bar", PyClass.cls 0 [] PyClass.obj, ["GET"], false, none, none,
    Except.error PyErr.other⟩

/-- C9 witness: on a registry listing the anonymous twin first and an
unrelated handler in between, the sorted listing still places "Foo" and
"AnonymousFoo" adjacently. -/
theorem c9_anonymous_twin_adjacent_witness :
    ∃ pre d1 d2 post,
      documentation_view_docs [c9w_anonfoo, c9w_bar, c9w_foo] =
          pre ++ d1 :: d2 :: post ∧
        ((d1.name = "Foo" ∧ d2.name = "AnonymousFoo") ∨
          (d1.name = "AnonymousFoo" ∧ d2.name = "Foo")) :=
  c9_anonymous_twin_adjacent [c9w_anonfoo, c9w_bar, c9w_foo]
    (by decide) (by decide) (by decide)

/-! ## C4 / C5: resource URI template resolution -/

/-- The candidate `(result_template, params)` pairs in the order the two
nested loops visit them. -/
def flat_possibilities
    (poss : List (List (List TemplateElem × List String) × String)) :
    List (List TemplateElem × List String) :=
  poss.flatMap Prod.fst

/-- Claim-side match condition: with positional args supplied, parameter
count must equal the arg count; with only keyword args, the parameter-name
set must equal the key set. -/
def matches_locator (args kwargKeys params : List String) : Bool :=
  if args ≠ [] then args.length == params.length else setEqList kwargKeys params

/-- Claim-side rendering: each parameter placeholder becomes `{name}`. -/
def render_placeholders : List TemplateElem → String
  | [] => ""
  | .lit s :: rest => s ++ render_placeholders rest
  | .param n :: rest => "\x7b" ++ n ++ "\x7d" ++ render_placeholders rest

/-- The placeholder names of a template. -/
def template_params (t : List TemplateElem) : List String :=
  t.filterMap (fun e =>
    match e with
    | .lit _ => none
    | .param n => some n)

lemma lookup_map_self (params : List String) (n : String) (g : String → String) :
    (params.map (fun p => (p, g p))).lookup n =
      if n ∈ params then some (g n) else none := by
  induction params with
  | nil => simp
  | cons p ps ih =>
    by_cases hnp : n = p
    · subst hnp
      simp [List.lookup]
    · have hb : (n == p) = false := beq_eq_false_iff_ne.mpr hnp
      simp [List.lookup, hb, ih, hnp]

lemma template_params_cons_lit (s : String) (rest : List TemplateElem) :
    template_params (.lit s :: rest) = template_params rest := rfl

lemma template_params_cons_param (n : String) (rest : List TemplateElem) :
    template_params (.param n :: rest) = n :: template_params rest := rfl

lemma interp_template_ok (params : List String) (t : List TemplateElem)
    (hwf : ∀ n ∈ template_params t, n ∈ params) :
    interp_template (params.map (fun p => (p, "\x7b" ++ p ++ "\x7d"))) t =
      .ok (render_placeholders t) := by
  induction t with
  | nil => rfl
  | cons e rest ih =>
    cases e with
    | lit s =>
      have hrest := ih (fun n hn => hwf n ((template_params_cons_lit s rest) ▸ hn))
      rw [interp_template, hrest]
      rfl
    | param n =>
      have hn : n ∈ params := hwf n (by
        rw [template_params_cons_param]
        exact List.mem_cons_self _ _)
      have hl := lookup_map_self params n (fun p => "\x7b" ++ p ++ "\x7d")
      rw [if_pos hn] at hl
      have hrest := ih (fun n2 hn2 => hwf n2 (by
        rw [template_params_cons_param]
        exact List.mem_cons_of_mem _ hn2))
      rw [interp_template, hl, hrest]
      rfl

lemma uri_convert_ok (env : ResolverEnv) (result : List TemplateElem)
    (params : List String) (hwf : ∀ n ∈ template_params result, n ∈ params) :
    uri_convert env result params =
      .ok (env.script_root ++ render_placeholders result) := by
  rw [uri_convert, interp_template_ok params result hwf]
  rfl

lemma uri_loop_inner_cons (env : ResolverEnv) (args kwargKeys : List String)
    (result : List TemplateElem) (params : List String)
    (rest : List (List TemplateElem × List String)) :
    uri_loop_inner env args kwargKeys ((result, params) :: rest) =
      if matches_locator args kwargKeys params = true then
        (uri_convert env result params).map some
      else uri_loop_inner env args kwargKeys rest := by
  rw [uri_loop_inner, matches_locator]
  by_cases ha : args ≠ []
  · rw [if_pos ha, if_pos ha]
    by_cases hl : args.length = params.length
    · simp [hl]
    · simp [hl]
  · rw [if_neg ha, if_neg ha]
    by_cases hs : setEqList kwargKeys params = true
    · simp [hs]
    · rw [Bool.not_eq_true] at hs
      simp [hs]

lemma uri_loop_inner_eq (env : ResolverEnv) (args kwargKeys : List String) :
    ∀ poss : List (List TemplateElem × List String),
      (∀ rp ∈ poss, ∀ n ∈ template_params rp.1, n ∈ rp.2) →
      uri_loop_inner env args kwargKeys poss =
        .ok ((poss.find? (fun rp => matches_locator args kwargKeys rp.2)).map
          (fun rp => env.script_root ++ render_placeholders rp.1)) := by
  intro poss
  induction poss with
  | nil => intro _; rfl
  | cons rp rest ih =>
    intro hwf
    obtain ⟨result, params⟩ := rp
    rw [uri_loop_inner_cons]
    by_cases hm : matches_locator args kwargKeys params = true
    · rw [if_pos hm, uri_convert_ok env result params (hwf (result, params) (by simp))]
      have hfind : List.find? (fun rp => matches_locator args kwargKeys rp.2)
          ((result, params) :: rest) = some (result, params) :=
        List.find?_cons_of_pos rest hm
      rw [hfind]
      rfl
    · rw [if_neg hm, ih (fun rp2 h2 => hwf rp2 (List.mem_cons_of_mem _ h2))]
      have hfind : List.find? (fun rp => matches_locator args kwargKeys rp.2)
          ((result, params) :: rest) =
          List.find? (fun rp => matches_locator args kwargKeys rp.2) rest :=
        List.find?_cons_of_neg rest hm
      rw [hfind]

lemma find?_append_none {α : Type} (p : α → Bool) (l1 l2 : List α)
    (h : l1.find? p = none) : (l1 ++ l2).find? p = l2.find? p := by
  induction l1 with
  | nil => rfl
  | cons a rest ih =>
    rw [List.find?_cons] at h
    cases hp : p a with
    | true => rw [hp] at h; simp at h
    | false =>
      rw [hp] at h
      rw [List.cons_append, List.find?_cons_of_neg _ (by simp [hp]), ih h]

lemma find?_append_some {α : Type} (p : α → Bool) (l1 l2 : List α) (a : α)
    (h : l1.find? p = some a) : (l1 ++ l2).find? p = some a := by
  induction l1 with
  | nil => simp at h
  | cons x rest ih =>
    rw [List.find?_cons] at h
    cases hp : p x with
    | true =>
      rw [hp] at h
      rw [List.cons_append, List.find?_cons_of_pos _ hp]
      exact h
    | false =>
      rw [hp] at h
      rw [List.cons_append, List.find?_cons_of_neg _ (by simp [hp]), ih h]

lemma uri_loop_outer_eq (env : ResolverEnv) (args kwargKeys : List String) :
    ∀ poss : List (List (List TemplateElem × List String) × String),
      (∀ rp ∈ flat_possibilities poss, ∀ n ∈ template_params rp.1, n ∈ rp.2) →
      uri_loop_outer env args kwargKeys poss =
        .ok (((flat_possibilities poss).find?
            (fun rp => matches_locator args kwargKeys rp.2)).map
          (fun rp => env.script_root ++ render_placeholders rp.1)) := by
  intro poss
  induction poss with
  | nil => intro _; rfl
  | cons pp rest ih =>
    intro hwf
    obtain ⟨possibility, pat⟩ := pp
    have hflat : flat_possibilities ((possibility, pat) :: rest) =
        possibility ++ flat_possibilities rest := by
      simp [flat_possibilities]
    rw [uri_loop_outer]
    have hinner := uri_loop_inner_eq env args kwargKeys possibility (by
      intro rp hrp
      apply hwf
      rw [hflat]
      exact List.mem_append_left _ hrp)
    rw [hinner, hflat]
    cases hfind :
        possibility.find? (fun rp => matches_locator args kwargKeys rp.2) with
    | none =>
      rw [find?_append_none _ _ _ hfind]
      simp only [Option.map_none']
      exact ih (by
        intro rp hrp
        apply hwf
        rw [hflat]
        exact List.mem_append_right _ hrp)
    | some rp =>
      rw [find?_append_some _ _ _ _ hfind]
      rfl

lemma uri_loop_inner_nomatch (env : ResolverEnv) (args kwargKeys : List String)
    (poss : List (List TemplateElem × List String))
    (h : ∀ rp ∈ poss, matches_locator args kwargKeys rp.2 = false) :
    uri_loop_inner env args kwargKeys poss = .ok none := by
  induction poss with
  | nil => rfl
  | cons rp rest ih =>
    obtain ⟨result, params⟩ := rp
    rw [uri_loop_inner_cons]
    rw [if_neg (by simp [h (result, params) (by simp)])]
    exact ih (fun rp2 h2 => h rp2 (List.mem_cons_of_mem _ h2))

lemma uri_loop_outer_nomatch (env : ResolverEnv) (args kwargKeys : List String)
    (poss : List (List (List TemplateElem × List String) × String))
    (h : ∀ rp ∈ flat_possibilities poss,
      matches_locator args kwargKeys rp.2 = false) :
    uri_loop_outer env args kwargKeys poss = .ok none := by
  induction poss with
  | nil => rfl
  | cons pp rest ih =>
    obtain ⟨possibility, pat⟩ := pp
    have hflat : flat_possibilities ((possibility, pat) :: rest) =
        possibility ++ flat_possibilities rest := by
      simp [flat_possibilities]
    rw [uri_loop_outer]
    rw [uri_loop_inner_nomatch env args kwargKeys possibility (by
      intro rp hrp
      apply h
      rw [hflat]
      exact List.mem_append_left _ hrp)]
    exact ih (by
      intro rp hrp
      apply h
      rw [hflat]
      exact List.mem_append_right _ hrp)

/-- C4: when the locator and view resolution succeed, and the reverse
table is well-formed (every template placeholder is among its pattern's
parameters), `get_resource_uri_template` returns exactly the script
prefix plus the `{name}`-rendered template of the *first* candidate whose
parameters match the locator's positional count / keyword key set, and
`none` when no candidate matches. -/
theorem c4_uri_template_first_match (h : Handler) (env : ResolverEnv)
    (ru : ResourceUri) (v : String)
    (hru : h.resource_uri = .ok ru)
    (hv : env.get_callable ru.view = .ok v)
    (hwf : ∀ rp ∈ flat_possibilities (env.reverse_getlist v),
      ∀ n ∈ template_params rp.1, n ∈ rp.2) :
    get_resource_uri_template h env =
      ((flat_possibilities (env.reverse_getlist v)).find?
          (fun rp => matches_locator ru.args (ru.kwargs.map Prod.fst) rp.2)).map
        (fun rp => env.script_root ++ render_placeholders rp.1) := by
  rw [get_resource_uri_template, uri_try_body]
  simp only [bind, Except.bind, hru, hv]
  rw [uri_loop_outer_eq env ru.args (ru.kwargs.map Prod.fst)
    (env.reverse_getlist v) hwf]

/-- C4 witness environment: one registered pattern `/items/%(id)s/` with
parameter set `{id}` for view "view_name". -/
def c4w_env : ResolverEnv :=
  ⟨"<script_prefix>",
    fun vw => Except.ok vw,
    fun vw =>
      if vw = "view_name" then
        [([([TemplateElem.lit "/items/", TemplateElem.param "id",
          TemplateElem.lit "/"], ["id"])], "items_pat")]
      else []⟩

/-- C4 witness handler whose locator returns
`("view_name", [], \x7b"id": None\x7d)`. -/
def c4w_handler : Handler :=
  ⟨"C4WHandler", PyClass.cls 0 [] PyClass.obj, ["GET"], false, none, none,
    Except.ok ⟨"view_name", [], [("id", none)]⟩⟩

/-- C4 witness: the concrete example of the claim — the result is the
script prefix followed by `/items/\x7bid\x7d/`. -/
theorem c4_uri_template_first_match_witness :
    get_resource_uri_template c4w_handler c4w_env =
      some "<script_prefix>/items/\x7bid\x7d/" := by
  rw [c4_uri_template_first_match c4w_handler c4w_env
    ⟨"view_name", [], [("id", none)]⟩ "view_name" rfl rfl (by decide)]
  rfl

/-- C5: `get_resource_uri_template` never propagates a failure — it
returns `none` when the locator raises, when the view resolution raises,
when no registered candidate matches, and in general whenever any step of
the `try:` body raises. -/
theorem c5_uri_template_absorbs_failures (h : Handler) (env : ResolverEnv) :
    (∀ e, h.resource_uri = .error e → get_resource_uri_template h env = none) ∧
      (∀ ru e, h.resource_uri = .ok ru → env.get_callable ru.view = .error e →
        get_resource_uri_template h env = none) ∧
      (∀ ru v, h.resource_uri = .ok ru → env.get_callable ru.view = .ok v →
        (∀ rp ∈ flat_possibilities (env.reverse_getlist v),
          matches_locator ru.args (ru.kwargs.map Prod.fst) rp.2 = false) →
        get_resource_uri_template h env = none) ∧
      (∀ e, uri_try_body h env = .error e → get_resource_uri_template h env = none) := by
  refine ⟨?_, ?_, ?_, ?_⟩
  · intro e he
    rw [get_resource_uri_template, uri_try_body]
    simp [bind, Except.bind, he]
  · intro ru e hru he
    rw [get_resource_uri_template, uri_try_body]
    simp [bind, Except.bind, hru, he]
  · intro ru v hru hv hnone
    rw [get_resource_uri_template, uri_try_body]
    simp only [bind, Except.bind, hru, hv]
    rw [uri_loop_outer_nomatch env (ru.args) (ru.kwargs.map Prod.fst)
      (env.reverse_getlist v) hnone]
  · intro e he
    rw [get_resource_uri_template, he]

/-- C5 witness handler whose locator raises (e.g. no `resource_uri`
attribute — an `AttributeError`). -/
def c5w_handler : Handler :=
  ⟨"C5WHandler", PyClass.cls 0 [] PyClass.obj, [], false, none, none,
    Except.error PyErr.attributeError⟩

/-- C5 witness environment. -/
def c5w_env : ResolverEnv :=
  ⟨"", fun vw => Except.ok vw, fun _ => []⟩

/-- C5 witness: the failing locator is absorbed and the result is
absent. -/
theorem c5_uri_template_absorbs_failures_witness :
    get_resource_uri_template c5w_handler c5w_env = none :=
  (c5_uri_template_absorbs_failures c5w_handler c5w_env).1 PyErr.attributeError rfl

/-! ## C3: the rendered signature -/

/-- The reserved-name test as a Bool. -/
def reservedB (a : String) : Bool := a == "self" || a == "request" || a == "form"

/-- Claim-side rendering of one `iter_args` pair: `"name"` or
`"name=default"`, where a truthy (non-empty) default string is required
for the `=` part — Python's `if argdef:`. -/
def renderEntry (pr : String × Option String) : String :=
  match pr.2 with
  | some d => if d ≠ "" then pr.1 ++ "=" ++ d else pr.1
  | none => pr.1

/-- Claim-side entry for parameter `(idx, arg)` as the frozen claim words
it: the default (string form) is attached iff the parameter lies in the
trailing suffix of length `defaults.length` (defaults pair positionally
from the end). -/
def entry_of_orig (m : MethodImpl) (p : Nat × String) : String :=
  if m.args.length - m.defaults.length ≤ p.1 then
    p.2 ++ "=" ++ m.defaults.getD (p.1 - (m.args.length - m.defaults.length)) ""
  else p.2

/-- Amended claim-side entry: additionally the default's string form must
be non-empty for the `=` part to appear. -/
def entry_of_claim (m : MethodImpl) (p : Nat × String) : String :=
  let d := m.defaults.getD (p.1 - (m.args.length - m.defaults.length)) ""
  if m.args.length - m.defaults.length ≤ p.1 ∧ d ≠ "" then p.2 ++ "=" ++ d
  else p.2

/-- The claim's entry list as frozen (no truthiness condition). -/
def iter_entries_orig (m : MethodImpl) : List String :=
  (m.args.enum.filter (fun p => !reservedB p.2)).map (entry_of_orig m)

/-- The amended claim's entry list. -/
def iter_entries_claim (m : MethodImpl) : List String :=
  (m.args.enum.filter (fun p => !reservedB p.2)).map (entry_of_claim m)

/-- Entries joined with `", "` separators and no trailing separator. -/
def join_comma : List String → String
  | [] => ""
  | [e] => e
  | e :: rest => e ++ ", " ++ join_comma rest

/-- Entries joined with a `", "` after every entry (the loop's raw
accumulation shape). -/
def join_trail : List String → String
  | [] => ""
  | e :: rest => e ++ ", " ++ join_trail rest

/-- An entry is well-behaved for the trailing `rstrip(", ")` when it is
non-empty and does not itself end in a comma or space. -/
def entry_ok (e : String) : Bool :=
  match e.data.reverse with
  | [] => false
  | c :: _ => !isStripChar c

/-- The char-list core of `rstrip(", ")`. -/
def dataRstrip (l : List Char) : List Char :=
  (l.reverse.dropWhile isStripChar).reverse

lemma string_eq_of_data {s t : String} (h : s.data = t.data) : s = t := by
  cases s
  cases t
  cases h
  rfl

lemma filter_map_eq_filterMap {α β : Type} (p : α → Bool) (r : α → β)
    (l : List α) :
    (l.filter p).map r =
      l.filterMap (fun a => if p a = true then some (r a) else none) := by
  induction l with
  | nil => rfl
  | cons a t ih =>
    by_cases hp : p a = true
    · simp [hp, ih]
    · simp [hp, ih]

lemma iter_args_step_render (m : MethodImpl)
    (hlen : m.defaults.length ≤ m.args.length) (p : Nat × String) :
    (iter_args_step m p).map renderEntry =
      if (!reservedB p.2) = true then some (entry_of_claim m p) else none := by
  obtain ⟨idx, arg⟩ := p
  by_cases hres : (arg = "self" ∨ arg = "request" ∨ arg = "form")
  · have hb : reservedB arg = true := by
      rcases hres with h | h | h <;> simp [reservedB, h]
    rw [iter_args_step, if_pos hres]
    simp [hb]
  · have hb : reservedB arg = false := by
      push_neg at hres
      simp only [reservedB, Bool.or_eq_false_iff, beq_eq_false_iff_ne]
      exact ⟨⟨hres.1, hres.2.1⟩, hres.2.2⟩
    rw [iter_args_step, if_neg hres]
    simp only [hb, Bool.not_false, if_pos]
    by_cases hc1 : (m.defaults ≠ [] ∧ m.args.length - idx ≤ m.defaults.length)
    · rw [if_pos hc1]
      have hc2 : m.args.length - m.defaults.length ≤ idx := by omega
      by_cases hidx : idx < m.args.length
      · have hieq : m.defaults.length - (m.args.length - idx) =
            idx - (m.args.length - m.defaults.length) := by omega
        by_cases hd :
            m.defaults.getD (idx - (m.args.length - m.defaults.length)) "" = ""
        · simp [renderEntry, entry_of_claim, hieq, hd, hc2]
        · simp [renderEntry, entry_of_claim, hieq, hd, hc2]
      · have hg1 : m.defaults.getD
            (m.defaults.length - (m.args.length - idx)) "" = "" :=
          List.getD_eq_default _ _ (by omega)
        have hg2 : m.defaults.getD
            (idx - (m.args.length - m.defaults.length)) "" = "" :=
          List.getD_eq_default _ _ (by omega)
        simp only [List.getD_eq_getElem?_getD] at hg1 hg2
        simp [renderEntry, entry_of_claim, hg1, hg2]
    · rw [if_neg hc1]
      rcases not_and_or.mp hc1 with hD | hdid
      · have hD2 : m.defaults = [] := not_not.mp hD
        simp [renderEntry, entry_of_claim, hD2]
      · have hx : ¬(m.args.length - m.defaults.length ≤ idx) := by omega
        simp [renderEntry, entry_of_claim, hx]

lemma iter_args_map_render (m : MethodImpl)
    (hlen : m.defaults.length ≤ m.args.length) :
    (iter_args m).map renderEntry = iter_entries_claim m := by
  rw [iter_args, iter_entries_claim, List.map_filterMap,
    filter_map_eq_filterMap]
  exact List.filterMap_congr (fun p _ => iter_args_step_render m hlen p)

lemma signature_step_eq (acc : String) (pr : String × Option String) :
    signature_step acc pr = acc ++ (renderEntry pr ++ ", ") := by
  obtain ⟨n, dOpt⟩ := pr
  cases dOpt with
  | none => simp [signature_step, renderEntry, String.append_assoc]
  | some d =>
    by_cases hd : d = ""
    · subst hd
      simp [signature_step, renderEntry, String.append_assoc]
    · simp [signature_step, renderEntry, hd, String.append_assoc]

lemma sig_foldl (es : List (String × Option String)) :
    ∀ acc : String,
      es.foldl signature_step acc = acc ++ join_trail (es.map renderEntry) := by
  induction es with
  | nil =>
    intro acc
    simp [join_trail, String.append_empty]
  | cons pr rest ih =>
    intro acc
    rw [List.foldl_cons, signature_step_eq, ih, List.map_cons, join_trail]
    simp [String.append_assoc]

lemma entry_ok_reverse (e : String) (h : entry_ok e = true) :
    ∃ c cs, e.data.reverse = c :: cs ∧ isStripChar c = false := by
  rw [entry_ok] at h
  cases hrev : e.data.reverse with
  | nil =>
    rw [hrev] at h
    simp at h
  | cons c cs =>
    rw [hrev] at h
    exact ⟨c, cs, rfl, by simpa using h⟩

lemma dropWhile_append_ne_nil (p : Char → Bool) :
    ∀ a b : List Char, a.dropWhile p ≠ [] →
      (a ++ b).dropWhile p = a.dropWhile p ++ b := by
  intro a
  induction a with
  | nil => intro b h; exact absurd rfl h
  | cons c a2 ih =>
    intro b h
    by_cases hp : p c = true
    · rw [List.dropWhile_cons, if_pos hp] at h
      rw [List.cons_append, List.dropWhile_cons, if_pos hp,
        List.dropWhile_cons, if_pos hp]
      exact ih b h
    · have hp2 : p c = false := by simpa using hp
      rw [List.cons_append, List.dropWhile_cons, if_neg (by simp [hp2]),
        List.dropWhile_cons, if_neg (by simp [hp2])]
      rfl

lemma dataRstrip_entry_sep (e : String) (h : entry_ok e = true) :
    dataRstrip (e.data ++ [',', ' ']) = e.data := by
  obtain ⟨c, cs, hrev, hc⟩ := entry_ok_reverse e h
  rw [dataRstrip, List.reverse_append]
  have h2 : (([',', ' '] : List Char).reverse ++ e.data.reverse) =
      ' ' :: ',' :: e.data.reverse := rfl
  rw [h2, List.dropWhile_cons, if_pos (by decide), List.dropWhile_cons,
    if_pos (by decide), hrev, List.dropWhile_cons, if_neg (by simp [hc]),
    ← hrev, List.reverse_reverse]

lemma dataRstrip_append (x y : List Char) (hy : dataRstrip y ≠ []) :
    dataRstrip (x ++ y) = x ++ dataRstrip y := by
  have hne : y.reverse.dropWhile isStripChar ≠ [] := by
    intro h0
    apply hy
    rw [dataRstrip, h0]
    rfl
  rw [dataRstrip, List.reverse_append, dropWhile_append_ne_nil _ _ _ hne,
    List.reverse_append, List.reverse_reverse, dataRstrip]

lemma join_trail_cons (e : String) (es : List String) :
    join_trail (e :: es) = (e ++ ", ") ++ join_trail es := by
  rw [join_trail]

lemma join_comma_cons₂ (e f : String) (es : List String) :
    join_comma (e :: f :: es) = (e ++ ", ") ++ join_comma (f :: es) := by
  rw [join_comma]
  simp [String.append_assoc]

lemma join_comma_data_ne (f : String) (es : List String)
    (hf : entry_ok f = true) : (join_comma (f :: es)).data ≠ [] := by
  obtain ⟨c, cs, hrev, _⟩ := entry_ok_reverse f hf
  have hfd : f.data ≠ [] := by
    intro h0
    rw [h0] at hrev
    simp at hrev
  cases es with
  | nil => simpa [join_comma] using hfd
  | cons g gs =>
    rw [join_comma_cons₂]
    rw [String.data_append, String.data_append]
    simp [List.append_eq_nil, hfd]

lemma rstrip_join_trail :
    ∀ es : List String, (∀ e ∈ es, entry_ok e = true) →
      rstripCommaSpace (join_trail es) = join_comma es := by
  intro es
  induction es with
  | nil => intro _; rfl
  | cons e rest ih =>
    intro hok
    have he : entry_ok e = true := hok e (List.mem_cons_self _ _)
    cases rest with
    | nil =>
      apply string_eq_of_data
      have hd : (join_trail [e]).data = e.data ++ [',', ' '] := by
        rw [join_trail, join_trail, String.append_empty, String.data_append]
      have h1 : (rstripCommaSpace (join_trail [e])).data =
          dataRstrip ((join_trail [e]).data) := rfl
      rw [h1, hd, dataRstrip_entry_sep e he]
      rfl
    | cons f rest2 =>
      have hf : entry_ok f = true := hok f (by simp)
      have hih := ih (fun x hx => hok x (List.mem_cons_of_mem _ hx))
      apply string_eq_of_data
      rw [join_trail_cons]
      have h1 : (rstripCommaSpace ((e ++ ", ") ++ join_trail (f :: rest2))).data =
          dataRstrip ((e ++ ", ").data ++ (join_trail (f :: rest2)).data) := by
        rw [← String.data_append]
        rfl
      have hihd : dataRstrip ((join_trail (f :: rest2)).data) =
          (join_comma (f :: rest2)).data := by
        have : (rstripCommaSpace (join_trail (f :: rest2))).data =
            (join_comma (f :: rest2)).data := by rw [hih]
        exact this
      have hne : dataRstrip ((join_trail (f :: rest2)).data) ≠ [] := by
        rw [hihd]
        exact join_comma_data_ne f rest2 hf
      rw [h1, dataRstrip_append _ _ hne, hihd, join_comma_cons₂]
      simp [String.data_append]

/-- The claim's joined-and-substituted rendering of a method signature,
using the amended entry list. -/
def signature_claim (m : MethodImpl) (parse_optional : Bool) : String :=
  if parse_optional then replaceNoneOptional (join_comma (iter_entries_claim m))
  else join_comma (iter_entries_claim m)

/-- C3 (counterexample input): an operation `(self, request, x="")` whose
single default renders as the empty string. -/
def c3_method : MethodImpl := ⟨"op", 0, ["self", "request", "x"], [""]⟩

/-- C3 is false as stated: `x` lies in the trailing defaults suffix, so
the claim renders `"x="` (name `=` string form of the default), but the
code's truthiness test `if argdef:` drops the `=` for an empty string and
yields `"x"`. -/
theorem c3_signature_counterexample :
    signature c3_method true = "x" ∧
      replaceNoneOptional (join_comma (iter_entries_orig c3_method)) = "x=" ∧
      signature c3_method true ≠
        replaceNoneOptional (join_comma (iter_entries_orig c3_method)) := by
  refine ⟨?_, ?_, ?_⟩ <;> decide

/-- C3 (amended): for a method whose `getargspec` data is well-formed (no
more defaults than parameters) and whose rendered entries are non-empty
and do not end in a comma or space, the signature lists the non-reserved
parameters in declaration order, attaches `=` plus the default's string
form exactly when the parameter lies in the trailing defaults suffix
*and* that string form is non-empty, joins with `", "` and no trailing
separator, and (for `parse_optional`) replaces every `"=None"` occurrence
with `"=<optional>"`. -/
theorem c3_signature_characterization (m : MethodImpl)
    (hlen : m.defaults.length ≤ m.args.length)
    (hok : ∀ e ∈ iter_entries_claim m, entry_ok e = true) :
    ∀ po, signature m po = signature_claim m po := by
  intro po
  have hfold : (iter_args m).foldl signature_step "" =
      join_trail (iter_entries_claim m) := by
    rw [sig_foldl (iter_args m) "", iter_args_map_render m hlen]
    have : ("" : String) ++ join_trail (iter_entries_claim m) =
        join_trail (iter_entries_claim m) := by
      apply string_eq_of_data
      rw [String.data_append]
      rfl
    exact this
  rw [signature, hfold, rstrip_join_trail (iter_entries_claim m) hok,
    signature_claim]

/-- C3 witness input: the claim's own example `(self, request, id,
form=None)`. -/
def c3w_method : MethodImpl :=
  ⟨"update", 0, ["self", "request", "id", "form"], ["None"]⟩

/-- C3 witness: on `(self, request, id, form=None)` the amended theorem
applies and the signature is exactly `"id"`. -/
theorem c3_signature_characterization_witness :
    signature c3w_method true = "id" := by
  rw [c3_signature_characterization c3w_method (by decide) (by decide) true]
  decide

end Piston
